import Mathlib

/-
Verification development for the isep-ics bridge (src/app/parser.py and
src/app/main.py).  Python text is embedded as List Char; Python exceptions
are embedded as Except; the regex patterns of parser.py are embedded as
hand-compiled backtracking scanners with the same leftmost, lazy/greedy
semantics as the source patterns.
-/

/-- The left brace character, written via its code point. -/
def lbrace : Char := Char.ofNat 123

/-- The right brace character, written via its code point. -/
def rbrace : Char := Char.ofNat 125

/-- The single-quote character, written via its code point. -/
def squote : Char := Char.ofNat 39

/-- The double-quote character. -/
def dquote : Char := '"'

/-- ASCII whitespace, the characters matched by the regex class backslash-s
on the ASCII range (the upstream blobs are ASCII-framed script text). -/
def isWsChar (c : Char) : Bool :=
  c = ' ' || c = Char.ofNat 9 || c = Char.ofNat 10 || c = Char.ofNat 13 ||
  c = Char.ofNat 11 || c = Char.ofNat 12

/-- Model of a Python naive datetime value (parser.py builds
datetime(y, m, d, hh, mm); seconds and microseconds are always zero). -/
structure PyDateTime where
  year : Nat
  month : Nat
  day : Nat
  hour : Nat
  minute : Nat
deriving DecidableEq, Repr

/-- Leap-year rule used by the Python datetime module. -/
def isLeapYear (y : Nat) : Bool :=
  y % 4 = 0 && (y % 100 ≠ 0 || y % 400 = 0)

/-- Number of days in a month, as validated by the Python datetime module. -/
def daysInMonth (y m : Nat) : Nat :=
  if m = 2 then (if isLeapYear y then 29 else 28)
  else if m = 4 || m = 6 || m = 9 || m = 11 then 30
  else 31

/-- Model of the Python datetime constructor: it returns a value exactly when
every component is in range (year 1..9999, month 1..12, day 1..days-in-month,
hour 0..23, minute 0..59) and raises ValueError otherwise (modelled as none). -/
def pyDatetime (y m d hh mi : Nat) : Option PyDateTime :=
  if 1 ≤ y ∧ y ≤ 9999 ∧ 1 ≤ m ∧ m ≤ 12 ∧ 1 ≤ d ∧ d ≤ daysInMonth y m ∧
     hh ≤ 23 ∧ mi ≤ 59 then
    some ⟨y, m, d, hh, mi⟩
  else
    none

/-- Embeds parser.py _parse_js_date: converts the five captured integers of a
JS new Date token to a Python datetime, adding one to the zero-based month.
A none result models the ValueError that the unguarded datetime call raises. -/
def parse_js_date (y mth d hh mm : Nat) : Option PyDateTime :=
  pyDatetime y (mth + 1) d hh mm

/-- The five captured groups of DATE_RE. -/
structure DateGroups where
  y : Nat
  mo : Nat
  d : Nat
  hh : Nat
  mi : Nat
deriving DecidableEq, Repr

/-- Match a literal character sequence at the head of the input, returning
the rest of the input. -/
def lit : List Char → List Char → Option (List Char)
  | [], s => some s
  | _ :: _, [] => none
  | p :: ps, c :: cs => if c = p then lit ps cs else none

/-- Match one quote character (the regex class holding both quote kinds). -/
def quoteQ : List Char → Option (List Char)
  | [] => none
  | c :: cs => if c = squote || c = dquote then some cs else none

/-- Greedy backslash-s star: skip a maximal run of whitespace. -/
def skipWs (s : List Char) : List Char :=
  s.dropWhile isWsChar

/-- Digit value of an ASCII digit character. -/
def digitVal (c : Char) : Nat := c.toNat - 48

/-- Match exactly four digits (the year group of DATE_RE). -/
def digits4 : List Char → Option (Nat × List Char)
  | a :: b :: c :: d :: rest =>
    if a.isDigit && b.isDigit && c.isDigit && d.isDigit then
      some (((digitVal a * 10 + digitVal b) * 10 + digitVal c) * 10 + digitVal d, rest)
    else none
  | _ => none

/-- Match one or two digits greedily (the other groups of DATE_RE).  When two
digits are present the two-digit reading is the only one the source pattern
can complete with, because the one-digit alternative leaves a digit where the
following delimiter is required. -/
def digits12 : List Char → Option (Nat × List Char)
  | [] => none
  | c :: rest =>
    if c.isDigit then
      match rest with
      | c2 :: rest2 =>
        if c2.isDigit then some (digitVal c * 10 + digitVal c2, rest2)
        else some (digitVal c, rest)
      | [] => some (digitVal c, [])
    else none

/-- Match DATE_RE of parser.py at the head of the input: the literal
new Date( then the five comma-separated integer groups with optional
whitespace, then the closing parenthesis.  Returns the groups and the rest of
the input after the match (the position sm.end). -/
def dateArgsMatch (s0 : List Char) : Option (DateGroups × List Char) :=
  (lit "new Date(".data s0).bind fun s1 =>
  (digits4 (skipWs s1)).bind fun (y, s2) =>
  (lit [','] (skipWs s2)).bind fun s3 =>
  (digits12 (skipWs s3)).bind fun (mo, s4) =>
  (lit [','] (skipWs s4)).bind fun s5 =>
  (digits12 (skipWs s5)).bind fun (d, s6) =>
  (lit [','] (skipWs s6)).bind fun s7 =>
  (digits12 (skipWs s7)).bind fun (hh, s8) =>
  (lit [','] (skipWs s8)).bind fun s9 =>
  (digits12 (skipWs s9)).bind fun (mi, s10) =>
  (lit [')'] (skipWs s10)).map fun s11 =>
  (⟨y, mo, d, hh, mi⟩, s11)

/-- DATE_RE.search: leftmost match anywhere in the input. -/
def dateSearch : List Char → Option (DateGroups × List Char)
  | [] => none
  | c :: rest =>
    match dateArgsMatch (c :: rest) with
    | some r => some r
    | none => dateSearch rest

/-- Match the key-plus-date segment of EVENT_BLOCK_RE at the head of the
input: a quoted key, optional whitespace, a colon, optional whitespace, the
literal new Date(, any non-parenthesis characters, and the closing
parenthesis.  Every piece is deterministic, so no backtracking arises inside
this segment. -/
def keyDate (key : List Char) (s0 : List Char) : Option (List Char) :=
  (quoteQ s0).bind fun s1 =>
  (lit key s1).bind fun s2 =>
  (quoteQ s2).bind fun s3 =>
  (lit [':'] (skipWs s3)).bind fun s4 =>
  (lit "new Date(".data (skipWs s4)).bind fun s5 =>
  lit [')'] (s5.dropWhile (· ≠ ')'))

/-- The final lazy any-star of EVENT_BLOCK_RE followed by the closing brace:
consume the minimal run of arbitrary characters up to the first closing
brace, returning the number of characters consumed including the brace. -/
def lazyClose : List Char → Option Nat
  | [] => none
  | c :: rest =>
    if c = rbrace then some 1 else (lazyClose rest).map (· + 1)

/-- The middle lazy any-star of EVENT_BLOCK_RE: at each position, first try
the end-key date segment followed by the closing part; on failure consume one
arbitrary character and retry (lazy minimal matching with backtracking). -/
def lazyEnd : List Char → Option Nat
  | [] => none
  | c :: rest =>
    match keyDate "end".data (c :: rest) with
    | some s2 =>
      match lazyClose s2 with
      | some m => some ((c :: rest).length - s2.length + m)
      | none => (lazyEnd rest).map (· + 1)
    | none => (lazyEnd rest).map (· + 1)

/-- The first lazy star of EVENT_BLOCK_RE, restricted to non-brace
characters: at each position, first try the start-key date segment followed
by the rest of the pattern; on failure consume one non-brace character and
retry.  A brace before the start key makes the whole candidate fail. -/
def lazyStart : List Char → Option Nat
  | [] => none
  | c :: rest =>
    match keyDate "start".data (c :: rest) with
    | some s2 =>
      match lazyEnd s2 with
      | some m => some ((c :: rest).length - s2.length + m)
      | none =>
        if c ≠ lbrace && c ≠ rbrace then (lazyStart rest).map (· + 1) else none
    | none =>
      if c ≠ lbrace && c ≠ rbrace then (lazyStart rest).map (· + 1) else none

/-- Fuel-driven scan for EVENT_BLOCK_RE.findall.  Every step either consumes
at least one character of the input or ends the scan, so fuel equal to the
input length always suffices; the fuel only makes the recursion structural. -/
def findAllBlocksGo (fuel : Nat) (s : List Char) : List (List Char) :=
  match fuel, s with
  | 0, _ => []
  | _, [] => []
  | fuel + 1, c :: rest =>
    if c = lbrace then
      match lazyStart rest with
      | some n => (c :: rest.take n) :: findAllBlocksGo fuel (rest.drop n)
      | none => findAllBlocksGo fuel rest
    else findAllBlocksGo fuel rest

/-- EVENT_BLOCK_RE.findall of parser.py: non-overlapping, leftmost candidate
event blocks.  Every match starts with an opening brace, so scanning for
braces visits exactly the start positions at which the pattern can match. -/
def findAllBlocks (s : List Char) : List (List Char) :=
  findAllBlocksGo s.length s

/-- Lazy content capture up to the first occurrence of the given closing
quote character; none when the quote never closes. -/
def upTo (q : Char) : List Char → Option (List Char)
  | [] => none
  | c :: rest => if c = q then some [] else (upTo q rest).map (c :: ·)

/-- Match the quoted-field pattern of parser.py (title or body) at the head
of the input: quoted key, optional whitespace colon whitespace, a captured
opening quote, then the lazily captured content up to the matching quote. -/
def fieldMatchHere (key : List Char) (s0 : List Char) : Option (List Char) :=
  (quoteQ s0).bind fun s1 =>
  (lit key s1).bind fun s2 =>
  (quoteQ s2).bind fun s3 =>
  (lit [':'] (skipWs s3)).bind fun s4 =>
  match skipWs s4 with
  | [] => none
  | q :: rest => if q = squote || q = dquote then upTo q rest else none

/-- re.search for the quoted-field pattern: leftmost match in the block. -/
def quotedField (key : List Char) : List Char → Option (List Char)
  | [] => none
  | c :: rest =>
    match fieldMatchHere key (c :: rest) with
    | some content => some content
    | none => quotedField key rest

/-- Replace every non-overlapping occurrence of the two-character pattern by
the replacement, scanning left to right without rescanning replacements;
this is the Python str.replace semantics for the two-character escapes. -/
def replace2 (a b : Char) (rep : List Char) : List Char → List Char
  | [] => []
  | [x] => [x]
  | x :: y :: rest =>
    if x = a && y = b then rep ++ replace2 a b rep rest
    else x :: replace2 a b rep (y :: rest)

/-- Embeds unescape_js of parser.py: the four sequential str.replace calls
for escaped single quote, escaped double quote, escaped n and escaped r. -/
def unescape_js (s : List Char) : List Char :=
  replace2 '\\' 'r' [' ']
    (replace2 '\\' 'n' [' ']
      (replace2 '\\' dquote [dquote]
        (replace2 '\\' squote [squote] s)))

/-- Tag-skipping pass modelling the BeautifulSoup call of strip_html on
fragment input: markup between angle brackets is dropped and each tag acts
as a text-node separator (get_text with a space separator); entity and
broken-markup handling of the library is out of scope and unused by the
claims. -/
def stripTagsGo (inTag : Bool) : List Char → List Char
  | [] => []
  | c :: rest =>
    if inTag then
      if c = '>' then stripTagsGo false rest else stripTagsGo true rest
    else
      if c = '<' then ' ' :: stripTagsGo true rest else c :: stripTagsGo false rest

/-- Whitespace-separated words of a text, as produced by the Python
str.split() with no argument: runs of whitespace separate, no empty words. -/
def pyWordsGo (cur : List Char) : List Char → List (List Char)
  | [] => if cur = [] then [] else [cur.reverse]
  | c :: rest =>
    if isWsChar c then
      if cur = [] then pyWordsGo [] rest
      else cur.reverse :: pyWordsGo [] rest
    else pyWordsGo (c :: cur) rest

/-- Embeds strip_html of parser.py: strip markup to plain text, then collapse
every whitespace run to a single space and trim the ends (the join-split
idiom of the source). -/
def strip_html (s : List Char) : List Char :=
  List.intercalate [' '] (pyWordsGo [] (stripTagsGo false s))

/-- Identifier class of the labeled-room branch: ASCII letters, digits and
the hyphen. -/
def isRoomIdentChar (c : Char) : Bool :=
  c.isAlpha || c.isDigit || c = '-'

/-- Uppercase ASCII letter test for the bare-room branch. -/
def isUpperAZ (c : Char) : Bool :=
  'A' ≤ c && c ≤ 'Z'

/-- The labeled-room branch of the location alternation at the head of the
input: the literal Sala, at least one whitespace character, then at least one
identifier character, both greedy.  Returns the whole matched text. -/
def salaLabeledHere (s : List Char) : Option (List Char) :=
  match lit "Sala".data s with
  | none => none
  | some s1 =>
    let ws := s1.takeWhile isWsChar
    let s2 := s1.dropWhile isWsChar
    if ws = [] then none
    else
      let ident := s2.takeWhile isRoomIdentChar
      if ident = [] then none
      else some ("Sala".data ++ ws ++ ident)

/-- The bare-room branch of the location alternation at the head of the
input: one uppercase letter, a hyphen, then two or three digits greedily. -/
def bareRoomHere (s : List Char) : Option (List Char) :=
  match s with
  | c :: d :: rest =>
    if isUpperAZ c && d = '-' then
      let ds := (rest.takeWhile Char.isDigit).take 3
      if 2 ≤ ds.length then some (c :: d :: ds) else none
    else none
  | _ => none

/-- The location alternation of parser.py at one position: the labeled
branch is preferred, the bare branch is tried when it fails, matching the
alternation order of the source pattern.  The result is the group-zero text
the source stores as the location. -/
def salaHere (s : List Char) : Option (List Char) :=
  match salaLabeledHere s with
  | some m => some m
  | none => bareRoomHere s

/-- re.search for the location alternation: leftmost match, labeled branch
preferred at equal positions. -/
def salaSearch : List Char → Option (List Char)
  | [] => none
  | c :: rest =>
    match salaHere (c :: rest) with
    | some m => some m
    | none => salaSearch rest

/-- A normalized event record, the parser unit of output (parser.py returns
a dict with these five keys). -/
structure EventRec where
  start : PyDateTime
  end_ : PyDateTime
  summary : List Char
  location : List Char
  description : List Char
deriving DecidableEq, Repr

/-- The placeholder summary of parser.py. -/
def classDefault : List Char := "Class".data

/-- The stripped plain-text title of a block: the quoted title field when
present (unescaped), the empty string otherwise, passed through strip_html. -/
def blockTitleTxt (block : List Char) : List Char :=
  strip_html (match quotedField "title".data block with
    | some t => unescape_js t
    | none => [])

/-- The stripped plain-text body of a block, analogous to the title. -/
def blockBodyTxt (block : List Char) : List Char :=
  strip_html (match quotedField "body".data block with
    | some t => unescape_js t
    | none => [])

/-- Per-block step of extract_events (parser.py lines 42 to 80): search the
first date token, convert it (a conversion failure is the uncaught ValueError,
modelled as the error case), search the second date token after the first,
convert it, extract and strip the text fields, derive the location by the
first alternation match over the stripped title, truncate, and emit.  A block
missing either date token is skipped (the ok-none case). -/
def processBlock (block : List Char) : Except Unit (Option EventRec) :=
  match dateSearch block with
  | none => Except.ok none
  | some (g1, rest1) =>
    match parse_js_date g1.y g1.mo g1.d g1.hh g1.mi with
    | none => Except.error ()
    | some startDt =>
      match dateSearch rest1 with
      | none => Except.ok none
      | some (g2, _) =>
        match parse_js_date g2.y g2.mo g2.d g2.hh g2.mi with
        | none => Except.error ()
        | some endDt =>
          Except.ok (some
            { start := startDt
              end_ := endDt
              summary :=
                if blockTitleTxt block = [] then classDefault
                else (blockTitleTxt block).take 200
              location := (salaSearch (blockTitleTxt block)).getD []
              description :=
                if blockBodyTxt block = [] then []
                else (blockBodyTxt block).take 2000 })

/-- Fold of the per-block results in blob order: emitted records are
collected, skipped blocks contribute nothing, and an error aborts the whole
call with nothing returned, as an uncaught Python exception does. -/
def extractGo : List (List Char) → Except Unit (List EventRec)
  | [] => Except.ok []
  | b :: rest =>
    match processBlock b with
    | Except.error e => Except.error e
    | Except.ok none => extractGo rest
    | Except.ok (some r) => (extractGo rest).map (r :: ·)

/-- Embeds extract_events of parser.py.  The argument is optional because the
caller get_week_events can pass the Python None it got from the upstream
JSON; the source guard (if not js_blob) returns the empty list for both None
and the empty string. -/
def extract_events (js_blob : Option (List Char)) : Except Unit (List EventRec) :=
  match js_blob with
  | none => Except.ok []
  | some s => if s = [] then Except.ok [] else extractGo (findAllBlocks s)

/-- The d field of the upstream JSON body as seen by get_week_events: the
outer option is presence of the key, the inner option distinguishes a JSON
null (Python None) from a string value. -/
def pyGetD : Option (Option (List Char)) → Option (List Char)
  | none => some []
  | some none => none
  | some (some s) => some s

/-- Embeds the tail of get_week_events of main.py (a successful, parsed
response assumed, transport being out of scope for the claims): read the d
field with the empty-string default and hand it to extract_events. -/
def get_week_events (dField : Option (Option (List Char))) : Except Unit (List EventRec) :=
  extract_events (pyGetD dField)

/-- One line of the calendar artifact, a structural model of the external
icalendar emitter used by build_ics of main.py.  The uid line keeps the two
inputs the source derives the uid from (the start timestamp and the summary
whose runtime-randomized hash is not modellable). -/
inductive IcsLine where
  | beginCalendar
  | prodidLine
  | versionLine
  | methodPublish
  | beginEvent
  | dtstartLine (dt : PyDateTime)
  | dtendLine (dt : PyDateTime)
  | summaryLine (s : List Char)
  | locationLine (s : List Char)
  | descriptionLine (s : List Char)
  | uidLine (startDt : PyDateTime) (summary : List Char)
  | endEvent
  | endCalendar
deriving DecidableEq, Repr

/-- The lines build_ics adds for one event: dtstart, dtend, the summary with
the falsy-default placeholder, the location and description only when
non-empty, and the uid. -/
def eventLines (ev : EventRec) : List IcsLine :=
  [IcsLine.beginEvent, IcsLine.dtstartLine ev.start, IcsLine.dtendLine ev.end_,
   IcsLine.summaryLine (if ev.summary = [] then classDefault else ev.summary)]
  ++ (if ev.location = [] then [] else [IcsLine.locationLine ev.location])
  ++ (if ev.description = [] then [] else [IcsLine.descriptionLine ev.description])
  ++ [IcsLine.uidLine ev.start ev.summary, IcsLine.endEvent]

/-- Embeds build_ics of main.py: the calendar header properties, one event
component per record in order, and the closing line of the serialization. -/
def build_ics (all_events : List EventRec) : List IcsLine :=
  [IcsLine.beginCalendar, IcsLine.prodidLine, IcsLine.versionLine,
   IcsLine.methodPublish]
  ++ (all_events.map eventLines).flatten
  ++ [IcsLine.endCalendar]

/-- The two module-level cache globals of main.py: the optional cached
artifact bytes and the expiry instant (time is modelled as abstract ticks,
with datetime.min as tick zero). -/
structure CacheState where
  cacheIcs : Option (List IcsLine)
  cacheExpires : Nat
deriving DecidableEq, Repr

/-- Observable outcome of one probe window inside refresh_cache: the
week-resolution call raised, the resolved token was falsy, the week-fetch
call raised (including an exception escaping extract_events), or a list of
parsed records was obtained. -/
inductive WindowResult where
  | resolveFail
  | noToken
  | fetchFail
  | fetched (evs : List EventRec)
deriving DecidableEq, Repr

/-- True for every window whose resolution or fetch step contributed zero
records by failing or by resolving no token. -/
def windowFailed : WindowResult → Bool
  | WindowResult.fetched _ => false
  | _ => true

/-- The records of the successfully fetched windows, in window order. -/
def okEvents : List WindowResult → List EventRec
  | [] => []
  | WindowResult.fetched evs :: rest => evs ++ okEvents rest
  | _ :: rest => okEvents rest

/-- The dedup key of refresh_cache: the start, end and summary fields. -/
def evKey (e : EventRec) : PyDateTime × PyDateTime × List Char :=
  (e.start, e.end_, e.summary)

/-- Inner dedup step of refresh_cache (main.py lines 175 to 180): skip the
record when its key is in the seen set, otherwise append the record and its
key. -/
def dedupStep (acc : List EventRec × List (PyDateTime × PyDateTime × List Char))
    (ev : EventRec) : List EventRec × List (PyDateTime × PyDateTime × List Char) :=
  if evKey ev ∈ acc.2 then acc else (acc.1 ++ [ev], acc.2 ++ [evKey ev])

/-- Per-window step of the refresh loop: a failed window contributes
nothing, a fetched window folds its records through the dedup step. -/
def windowFold (acc : List EventRec × List (PyDateTime × PyDateTime × List Char)) :
    WindowResult → List EventRec × List (PyDateTime × PyDateTime × List Char)
  | WindowResult.fetched evs => evs.foldl dedupStep acc
  | _ => acc

/-- The merged, deduplicated working set of one refresh cycle, before
sorting. -/
def refreshGather (ws : List WindowResult) : List EventRec :=
  (ws.foldl windowFold ([], [])).1

/-- Recursive specification of first-occurrence-wins deduplication, used to
reason about the fold above. -/
def dedupGo (es : List EventRec) : List EventRec → List EventRec
  | [] => es
  | ev :: rest =>
    if evKey ev ∈ es.map evKey then dedupGo es rest
    else dedupGo (es ++ [ev]) rest

/-- Strictly monotone encoding of a datetime, agreeing with the Python
chronological comparison on every in-range datetime (month below 13, day
below 32, hour below 24, minute below 60). -/
def dtKey (dt : PyDateTime) : Nat :=
  (((dt.year * 13 + dt.month) * 32 + dt.day) * 24 + dt.hour) * 60 + dt.minute

/-- Code-point lexicographic order on text, the Python str comparison. -/
def lexLe : List Char → List Char → Bool
  | [], _ => true
  | _ :: _, [] => false
  | a :: s, b :: t => if a = b then lexLe s t else decide (a < b)

/-- The sort key of main.py line 182: the start, then the summary. -/
def sortKey (e : EventRec) : Nat × List Char :=
  (dtKey e.start, e.summary)

/-- Comparison of two sort keys: start first, summary as the tie-break. -/
def sortKeyLeB : Nat × List Char → Nat × List Char → Bool
  | (a, s), (b, t) => decide (a < b) || (decide (a = b) && lexLe s t)

/-- The record order used by events.sort of main.py. -/
def evLe (e1 e2 : EventRec) : Prop :=
  sortKeyLeB (sortKey e1) (sortKey e2) = true

instance : DecidableRel evLe := fun e1 e2 => by
  unfold evLe
  infer_instance

/-- Embeds events.sort of main.py line 182: a stable sort by the key pair,
the Python list.sort semantics. -/
def sortEvents (l : List EventRec) : List EventRec :=
  List.insertionSort evLe l

/-- One refresh cycle over given window outcomes, parameterized by the
artifact builder so that a builder failure (the EncodingError of the external
emitter) can be expressed: on builder success the two cache globals are
replaced by the new bytes and the new expiry, on builder failure the
exception propagates with both globals untouched. -/
def refreshWith (build : List EventRec → Except Unit (List IcsLine))
    (ws : List WindowResult) (now ttl : Nat) (st : CacheState) :
    CacheState × Except Unit Unit :=
  match build (sortEvents (refreshGather ws)) with
  | Except.error e => (st, Except.error e)
  | Except.ok b => (⟨some b, now + ttl⟩, Except.ok ())

/-- Embeds refresh_cache of main.py with the structural artifact builder,
which never fails. -/
def refresh_cache (ws : List WindowResult) (now ttl : Nat) (st : CacheState) :
    CacheState × Except Unit Unit :=
  refreshWith (fun evs => Except.ok (build_ics evs)) ws now ttl st

/-- Python truthiness of the cached bytes as tested by the handler guard
(not cache-ics): true for the Python None and for empty bytes. -/
def pyFalsyBytes : Option (List IcsLine) → Bool
  | none => true
  | some b => b.isEmpty

/-- The handler guard of main.py line 192. -/
def calendarGuard (now : Nat) (st : CacheState) : Bool :=
  pyFalsyBytes st.cacheIcs || decide (st.cacheExpires ≤ now)

/-- Embeds the calendar handler of main.py: read the clock, refresh
synchronously when the cache is falsy or the expiry has been reached, then
respond with the cached bytes or empty bytes.  The boolean records whether a
refresh was performed. -/
def calendarStep (ws : List WindowResult) (now ttl : Nat) (st : CacheState) :
    CacheState × List IcsLine × Bool :=
  if calendarGuard now st then
    let st2 := (refresh_cache ws now ttl st).1
    (st2, st2.cacheIcs.getD [], true)
  else
    (st, st.cacheIcs.getD [], false)

/-- The probe offsets of main.py line 158: the closed integer range from
minus weeks-before to plus weeks-after, in iteration order. -/
def weeksOffsets (b a : Nat) : List Int :=
  (List.range (b + a + 1)).map (fun (i : Nat) => (i : Int) - (b : Int))

/-- One caller thread of the interleaving model of the handler: program
counter zero is the guard read, one is the conditional refresh, two is done;
the decision read at the guard is kept locally, as the Python thread does
between the test and the call. -/
structure ThreadSt where
  pc : Nat
  decided : Bool
deriving DecidableEq, Repr

/-- Shared state of the interleaving model: the cache globals, the number of
refresh cycles executed so far, and the per-thread states. -/
structure SysState where
  cache : CacheState
  refreshCount : Nat
  threads : List ThreadSt
deriving DecidableEq, Repr

/-- One atomic step of one caller thread.  The guard step reads the shared
cache and stores the decision; the refresh step, taken only when the stored
decision was positive, runs a whole refresh cycle against the shared cache.
No synchronization is modelled because the source has none. -/
def threadStep (ws : List WindowResult) (now ttl : Nat) (sys : SysState)
    (t : Nat) : SysState :=
  match sys.threads.get? t with
  | none => sys
  | some th =>
    if th.pc = 0 then
      { sys with threads := sys.threads.set t ⟨1, calendarGuard now sys.cache⟩ }
    else if th.pc = 1 then
      if th.decided then
        { cache := (refresh_cache ws now ttl sys.cache).1
          refreshCount := sys.refreshCount + 1
          threads := sys.threads.set t ⟨2, th.decided⟩ }
      else { sys with threads := sys.threads.set t ⟨2, th.decided⟩ }
    else sys

/-- Run a schedule, a sequence of thread identifiers, from a system state. -/
def runSched (ws : List WindowResult) (now ttl : Nat) (sys : SysState)
    (sched : List Nat) : SysState :=
  sched.foldl (threadStep ws now ttl) sys

/-- Initial system state with the given number of caller threads and an
absent cache (the module-load state of main.py). -/
def initSys (n : Nat) : SysState :=
  ⟨⟨none, 0⟩, 0, List.replicate n ⟨0, false⟩⟩

/-- A blob holding one block whose date tokens carry zero-based month 0. -/
def blobM0 : List Char :=
  "\x7b\"start\": new Date(2025, 0, 5, 9, 0), \"end\": new Date(2025, 0, 5, 10, 0), \"title\": \"X\"\x7d".data

/-- A blob holding one block whose date tokens carry zero-based month 11. -/
def blobM11 : List Char :=
  "\x7b\"start\": new Date(2025, 11, 5, 9, 0), \"end\": new Date(2025, 11, 5, 10, 0), \"title\": \"X\"\x7d".data

/-- A blob holding one block whose date tokens carry zero-based month 12,
so the one-based month 13 is out of range for the datetime constructor. -/
def blobBadMonth : List Char :=
  "\x7b\"start\": new Date(2025, 12, 1, 10, 0), \"end\": new Date(2025, 12, 1, 11, 0)\x7d".data

/-- A blob holding one block whose date token carries hour 24, out of range
for the datetime constructor. -/
def blobBadHour : List Char :=
  "\x7b\"start\": new Date(2025, 5, 10, 24, 0), \"end\": new Date(2025, 5, 10, 25, 0)\x7d".data

/-- A blob holding one well-formed block followed by a block whose end date
token has only three arguments, so the second DATE_RE search fails and the
block is skipped. -/
def blobMixed : List Char :=
  "\x7b\"start\": new Date(2025, 8, 18, 18, 10), \"end\": new Date(2025, 8, 18, 19, 50), \"title\": \"Good\"\x7d \x7b\"start\": new Date(2025, 8, 19, 18, 10), \"end\": new Date(2025, 8, 19), \"title\": \"Bad\"\x7d".data

/-- A blob holding one well-formed block whose title carries a labeled room
token. -/
def blobSala : List Char :=
  "\x7b\"start\": new Date(2025, 8, 18, 18, 10), \"end\": new Date(2025, 8, 18, 19, 50), \"title\": \"ALGAV Sala B-204\"\x7d".data

/-- The record extracted from blobM0. -/
def recM0 : EventRec :=
  ⟨⟨2025, 1, 5, 9, 0⟩, ⟨2025, 1, 5, 10, 0⟩, "X".data, [], []⟩

/-- The record extracted from blobM11. -/
def recM11 : EventRec :=
  ⟨⟨2025, 12, 5, 9, 0⟩, ⟨2025, 12, 5, 10, 0⟩, "X".data, [], []⟩

/-- The record extracted from blobMixed. -/
def recGood : EventRec :=
  ⟨⟨2025, 9, 18, 18, 10⟩, ⟨2025, 9, 18, 19, 50⟩, "Good".data, [], []⟩

/-- The record extracted from blobSala. -/
def recSala : EventRec :=
  ⟨⟨2025, 9, 18, 18, 10⟩, ⟨2025, 9, 18, 19, 50⟩, "ALGAV Sala B-204".data, "Sala B-204".data, []⟩

/-- Start instant of the ordering examples: ten in the morning. -/
def s10 : PyDateTime := ⟨2025, 9, 18, 10, 0⟩

/-- Start instant of the ordering examples: nine in the morning. -/
def s9 : PyDateTime := ⟨2025, 9, 18, 9, 0⟩

/-- End instant of the ordering examples: eleven. -/
def e11 : PyDateTime := ⟨2025, 9, 18, 11, 0⟩

/-- End instant of the ordering examples: twelve. -/
def e12 : PyDateTime := ⟨2025, 9, 18, 12, 0⟩

/-- Ordering example record with start ten and summary B. -/
def evB : EventRec := ⟨s10, e11, "B".data, [], []⟩

/-- Ordering example record with start ten and summary A. -/
def evA : EventRec := ⟨s10, e11, "A".data, [], []⟩

/-- Ordering example record with start nine and summary Z. -/
def evZ : EventRec := ⟨s9, e11, "Z".data, [], []⟩

/-- A record sharing start and summary with evA but with a different end, so
the two records differ, share a sort key, and have distinct dedup keys. -/
def evA2 : EventRec := ⟨s10, e12, "A".data, [], []⟩

set_option maxRecDepth 100000

theorem windowFold_failed (acc : List EventRec × List (PyDateTime × PyDateTime × List Char))
    (w : WindowResult) (h : windowFailed w = true) : windowFold acc w = acc := by
  cases w
  · rfl
  · rfl
  · rfl
  · simp [windowFailed] at h

theorem foldl_windowFold_failed (ws : List WindowResult)
    (h : ∀ w ∈ ws, windowFailed w = true) :
    ∀ acc, ws.foldl windowFold acc = acc := by
  induction ws with
  | nil => intro acc; rfl
  | cons w rest ih =>
    intro acc
    have hw : windowFold acc w = acc := windowFold_failed acc w (h w (by simp))
    simp only [List.foldl_cons, hw]
    exact ih (fun x hx => h x (by simp [hx])) acc

/-- Claim C3: when every window of a refresh cycle fails, the cycle still
completes and publishes the empty-record artifact, a non-absent byte payload,
with the fresh expiry of now plus the TTL. -/
theorem c3_all_windows_failed (ws : List WindowResult) (now ttl : Nat)
    (st : CacheState) (h : ∀ w ∈ ws, windowFailed w = true) :
    refresh_cache ws now ttl st = (⟨some (build_ics []), now + ttl⟩, Except.ok ())
    ∧ build_ics [] ≠ [] := by
  constructor
  · unfold refresh_cache refreshWith refreshGather
    rw [foldl_windowFold_failed ws h ([], [])]
    rfl
  · simp [build_ics]

/-- Witness for C3 at a concrete two-window cycle where resolution fails in
one window and fetching in the other. -/
theorem c3_witness :
    refresh_cache [WindowResult.resolveFail, WindowResult.fetchFail] 5 15 ⟨none, 0⟩
      = (⟨some (build_ics []), 5 + 15⟩, Except.ok ()) ∧ build_ics [] ≠ [] :=
  c3_all_windows_failed [WindowResult.resolveFail, WindowResult.fetchFail] 5 15 ⟨none, 0⟩
    (by decide)

/-- Claim C4: when the artifact-building step of a refresh cycle fails, the
cycle publishes nothing; the previously cached bytes and the expiry are both
left unchanged and the failure propagates. -/
theorem c4_build_failure_keeps_cache
    (build : List EventRec → Except Unit (List IcsLine)) (ws : List WindowResult)
    (now ttl : Nat) (st : CacheState)
    (h : build (sortEvents (refreshGather ws)) = Except.error ()) :
    (refreshWith build ws now ttl st).1.cacheIcs = st.cacheIcs
    ∧ (refreshWith build ws now ttl st).1.cacheExpires = st.cacheExpires
    ∧ (refreshWith build ws now ttl st).2 = Except.error () := by
  unfold refreshWith
  rw [h]
  exact ⟨rfl, rfl, rfl⟩

/-- Witness for C4 with a failing builder over an empty window list and a
populated cache. -/
theorem c4_witness :
    (refreshWith (fun _ => Except.error ()) [] 3 15 ⟨some (build_ics []), 7⟩).1.cacheIcs
      = (⟨some (build_ics []), 7⟩ : CacheState).cacheIcs
    ∧ (refreshWith (fun _ => Except.error ()) [] 3 15 ⟨some (build_ics []), 7⟩).1.cacheExpires
      = (⟨some (build_ics []), 7⟩ : CacheState).cacheExpires
    ∧ (refreshWith (fun _ => Except.error ()) [] 3 15 ⟨some (build_ics []), 7⟩).2
      = Except.error () :=
  c4_build_failure_keeps_cache (fun _ => Except.error ()) [] 3 15 ⟨some (build_ics []), 7⟩ rfl

/-- Claim C7: the handler refreshes exactly when no cached artifact exists or
the clock is at or past the expiry (the boundary counts as expired), and when
it does not refresh it returns the cached bytes with the state unchanged. -/
theorem c7_refresh_guard (ws : List WindowResult) (now ttl : Nat) (st : CacheState)
    (h : ∀ b, st.cacheIcs = some b → b ≠ []) :
    (((calendarStep ws now ttl st).2.2 = true) ↔
      (st.cacheIcs = none ∨ st.cacheExpires ≤ now))
    ∧ (((calendarStep ws now ttl st).2.2 = false) →
      calendarStep ws now ttl st = (st, st.cacheIcs.getD [], false)) := by
  obtain ⟨ci, ce⟩ := st
  cases ci with
  | none =>
    unfold calendarStep calendarGuard pyFalsyBytes
    simp
  | some b =>
    have hb : b.isEmpty = false := by
      cases b with
      | nil => exact absurd rfl (h [] rfl)
      | cons x xs => rfl
    unfold calendarStep calendarGuard pyFalsyBytes
    by_cases hle : ce ≤ now <;> simp [hb, hle]

/-- Witness for C7 at the expiry boundary: the clock equals the expiry and a
refresh is triggered even though a non-empty artifact is cached. -/
theorem c7_witness :
    (calendarStep [] 10 15 ⟨some (build_ics []), 10⟩).2.2 = true := by
  refine ((c7_refresh_guard [] 10 15 ⟨some (build_ics []), 10⟩ ?_).1).mpr (Or.inr (by decide))
  intro b hb
  simp only [Option.some.injEq] at hb
  rw [← hb]
  simp [build_ics]

/-- Claim C8, universal part plus end-to-end checks: a date token whose
zero-based month is at most eleven yields the one-based month plus one when
the surrounding timestamp is valid, and full blobs carrying months zero and
eleven produce January and December records in both the start and end
fields. -/
theorem c8_month_normalization :
    (∀ y m d hh mm dt, m ≤ 11 → parse_js_date y m d hh mm = some dt →
      dt.month = m + 1)
    ∧ extract_events (some blobM0) = Except.ok [recM0]
    ∧ recM0.start.month = 1 ∧ recM0.end_.month = 1
    ∧ extract_events (some blobM11) = Except.ok [recM11]
    ∧ recM11.start.month = 12 ∧ recM11.end_.month = 12 := by
  refine ⟨?_, by rfl, rfl, rfl, by rfl, rfl, rfl⟩
  intro y m d hh mm dt _ hp
  unfold parse_js_date pyDatetime at hp
  split at hp
  · injection hp with h
    subst h
    rfl
  · exact absurd hp (by simp)

/-- Witness for C8 at the spec example month eight, which normalizes to
month nine. -/
theorem c8_witness :
    parse_js_date 2025 8 18 18 10 = some ⟨2025, 9, 18, 18, 10⟩
    ∧ (⟨2025, 9, 18, 18, 10⟩ : PyDateTime).month = 8 + 1 :=
  ⟨by rfl, c8_month_normalization.1 2025 8 18 18 10 ⟨2025, 9, 18, 18, 10⟩ (by decide) (by rfl)⟩

/-- Claim C9: the location of every emitted record is the first match of the
location alternation over the stripped title (empty when there is none); a
title containing the labeled token Sala B-204 yields that labeled token, a
bare B-204 yields B-204, a title without either pattern yields the empty
string, and the end-to-end pipeline stores the extracted token. -/
theorem c9_location :
    (∀ block rec, processBlock block = Except.ok (some rec) →
      rec.location = (salaSearch (blockTitleTxt block)).getD [])
    ∧ salaSearch "ALGAV Sala B-204".data = some "Sala B-204".data
    ∧ salaSearch "B-204 room".data = some "B-204".data
    ∧ salaSearch "no room here".data = none
    ∧ extract_events (some blobSala) = Except.ok [recSala]
    ∧ recSala.location = "Sala B-204".data := by
  refine ⟨?_, by rfl, by rfl, by rfl, by rfl, by rfl⟩
  intro block rec h
  unfold processBlock at h
  iterate 4 (all_goals try split at h)
  all_goals simp_all
  rw [← h]

/-- Witness for C9 at the concrete labeled-room block. -/
theorem c9_witness :
    recSala.location = (salaSearch (blockTitleTxt blobSala)).getD [] :=
  c9_location.1 blobSala recSala (by rfl)

/-- Claim C10: a successful week-fetch response whose JSON body lacks the d
field, or carries null or the empty string for it, contributes an empty
record list without raising. -/
theorem c10_missing_d (d : Option (Option (List Char)))
    (h : d = none ∨ d = some none ∨ d = some (some [])) :
    get_week_events d = Except.ok [] := by
  rcases h with rfl | rfl | rfl <;> rfl

/-- Witness for C10 at the null d value. -/
theorem c10_witness : get_week_events (some none) = Except.ok [] :=
  c10_missing_d (some none) (Or.inr (Or.inl rfl))

/-- Counterexample to claim C1 as stated: a blob whose single block carries a
date token with zero-based month twelve makes extract_events raise (the
ValueError of the datetime constructor propagates) instead of skipping the
block and returning a list. -/
theorem c1_counterexample : extract_events (some blobBadMonth) = Except.error () := by
  rfl

/-- Claim C1 as amended: extract_events returns the empty list for the None
and empty blobs, silently skips a block missing its second date token while
returning the well-formed record, but propagates an exception for a block
whose matched date arguments denote an out-of-range timestamp (hour
twenty-four here). -/
theorem c1_amended :
    extract_events none = Except.ok []
    ∧ extract_events (some []) = Except.ok []
    ∧ extract_events (some blobMixed) = Except.ok [recGood]
    ∧ extract_events (some blobBadHour) = Except.error () := by
  exact ⟨rfl, rfl, by rfl, by rfl⟩

/-- Counterexample to claim C2 as stated: two concurrent callers that both
read the guard before either refreshes each run a full refresh cycle, so two
cycles of upstream work happen, not one. -/
theorem c2_counterexample :
    (runSched [WindowResult.fetched []] 5 15 (initSys 2) [0, 1, 0, 1]).refreshCount = 2
    ∧ (runSched [WindowResult.fetched []] 5 15 (initSys 2) [0, 1, 0, 1]).refreshCount ≠ 1 := by
  constructor
  · rfl
  · decide

/-- Claim C2 as amended: with no synchronization in the handler, the number
of refresh cycles depends on the interleaving; when both callers pass the
guard before either refreshes, both refresh, and when one completes its
refresh before the other reads the guard, only the first refreshes. -/
theorem c2_amended :
    (runSched [WindowResult.fetched []] 5 15 (initSys 2) [0, 1, 0, 1]).refreshCount = 2
    ∧ (runSched [WindowResult.fetched []] 5 15 (initSys 2) [0, 0, 1, 1]).refreshCount = 1 := by
  exact ⟨rfl, rfl⟩

theorem lexLe_refl (s : List Char) : lexLe s s = true := by
  induction s with
  | nil => rfl
  | cons a t ih => simp [lexLe, ih]

theorem lexLe_total (s : List Char) : ∀ t, lexLe s t = true ∨ lexLe t s = true := by
  induction s with
  | nil => intro t; left; rfl
  | cons a s ih =>
    intro t
    cases t with
    | nil => right; rfl
    | cons b t =>
      by_cases hab : a = b
      · subst hab
        simp only [lexLe, if_pos rfl]
        exact ih t
      · rcases lt_or_gt_of_ne hab with h | h
        · left; simp [lexLe, hab, h]
        · right; simp [lexLe, Ne.symm hab, h]

theorem lexLe_trans {s : List Char} : ∀ {t u : List Char},
    lexLe s t = true → lexLe t u = true → lexLe s u = true := by
  induction s with
  | nil => intro t u _ _; rfl
  | cons a s ih =>
    intro t u h1 h2
    cases t with
    | nil => simp [lexLe] at h1
    | cons b t =>
      cases u with
      | nil => simp [lexLe] at h2
      | cons c u =>
        simp only [lexLe] at h1 h2 ⊢
        by_cases hab : a = b
        · subst hab
          rw [if_pos rfl] at h1
          by_cases hbc : a = c
          · subst hbc
            rw [if_pos rfl] at h2 ⊢
            exact ih h1 h2
          · rw [if_neg hbc] at h2 ⊢
            exact h2
        · rw [if_neg hab] at h1
          by_cases hbc : b = c
          · subst hbc
            rw [if_neg hab]
            exact h1
          · rw [if_neg hbc] at h2
            have hac : a < c := lt_trans (of_decide_eq_true h1) (of_decide_eq_true h2)
            rw [if_neg (ne_of_lt hac)]
            exact decide_eq_true hac

theorem lexLe_antisymm {s : List Char} : ∀ {t : List Char},
    lexLe s t = true → lexLe t s = true → s = t := by
  induction s with
  | nil =>
    intro t _ h2
    cases t with
    | nil => rfl
    | cons b t => simp [lexLe] at h2
  | cons a s ih =>
    intro t h1 h2
    cases t with
    | nil => simp [lexLe] at h1
    | cons b t =>
      simp only [lexLe] at h1 h2
      by_cases hab : a = b
      · subst hab
        rw [if_pos rfl] at h1 h2
        rw [ih h1 h2]
      · rw [if_neg hab] at h1
        rw [if_neg (Ne.symm hab)] at h2
        exact absurd (lt_trans (of_decide_eq_true h1) (of_decide_eq_true h2)) (lt_irrefl a)

theorem sortKeyLeB_iff (a b : Nat) (s t : List Char) :
    sortKeyLeB (a, s) (b, t) = true ↔ (a < b ∨ (a = b ∧ lexLe s t = true)) := by
  simp [sortKeyLeB]

theorem evLe_iff (e1 e2 : EventRec) :
    evLe e1 e2 ↔ (dtKey e1.start < dtKey e2.start ∨
      (dtKey e1.start = dtKey e2.start ∧ lexLe e1.summary e2.summary = true)) := by
  unfold evLe sortKey
  exact sortKeyLeB_iff _ _ _ _

theorem evLe_refl (e : EventRec) : evLe e e :=
  (evLe_iff e e).mpr (Or.inr ⟨rfl, lexLe_refl _⟩)

theorem evLe_total (e1 e2 : EventRec) : evLe e1 e2 ∨ evLe e2 e1 := by
  rw [evLe_iff, evLe_iff]
  rcases lt_trichotomy (dtKey e1.start) (dtKey e2.start) with h | h | h
  · exact Or.inl (Or.inl h)
  · rcases lexLe_total e1.summary e2.summary with hl | hl
    · exact Or.inl (Or.inr ⟨h, hl⟩)
    · exact Or.inr (Or.inr ⟨h.symm, hl⟩)
  · exact Or.inr (Or.inl h)

theorem evLe_trans {e1 e2 e3 : EventRec} (h1 : evLe e1 e2) (h2 : evLe e2 e3) :
    evLe e1 e3 := by
  rw [evLe_iff] at h1 h2 ⊢
  rcases h1 with h1 | ⟨h1e, h1l⟩ <;> rcases h2 with h2 | ⟨h2e, h2l⟩
  · exact Or.inl (by omega)
  · exact Or.inl (by omega)
  · exact Or.inl (by omega)
  · exact Or.inr ⟨by omega, lexLe_trans h1l h2l⟩

theorem evLe_key_antisymm {e1 e2 : EventRec} (h1 : evLe e1 e2) (h2 : evLe e2 e1) :
    sortKey e1 = sortKey e2 := by
  rw [evLe_iff] at h1 h2
  unfold sortKey
  rcases h1 with h1 | ⟨h1e, h1l⟩ <;> rcases h2 with h2 | ⟨h2e, h2l⟩
  · exact absurd (lt_trans h1 h2) (lt_irrefl _)
  · exact absurd h1 (by omega)
  · exact absurd h2 (by omega)
  · rw [h1e, lexLe_antisymm h1l h2l]

theorem sortEvents_sorted (l : List EventRec) : List.Sorted evLe (sortEvents l) := by
  haveI : IsTotal EventRec evLe := ⟨evLe_total⟩
  haveI : IsTrans EventRec evLe := ⟨fun _ _ _ h1 h2 => evLe_trans h1 h2⟩
  exact List.sorted_insertionSort evLe l

theorem sortEvents_perm (l : List EventRec) : (sortEvents l).Perm l :=
  List.perm_insertionSort evLe l

theorem sorted_perm_keys_eq : ∀ (l1 l2 : List EventRec), l1.Perm l2 →
    List.Sorted evLe l1 → List.Sorted evLe l2 → (l1.map sortKey).Nodup → l1 = l2 := by
  intro l1
  induction l1 with
  | nil =>
    intro l2 hp _ _ _
    exact (List.Perm.eq_nil hp.symm).symm
  | cons a t ih =>
    intro l2 hp hs1 hs2 hnd
    cases l2 with
    | nil => exact absurd (List.Perm.eq_nil hp) (by simp)
    | cons b t2 =>
      have hbmem : b ∈ a :: t := hp.mem_iff.mpr (List.mem_cons_self b t2)
      have hamem : a ∈ b :: t2 := hp.mem_iff.mp (List.mem_cons_self a t)
      have hab : evLe a b := by
        rcases List.mem_cons.mp hbmem with h | h
        · rw [h]; exact evLe_refl a
        · exact (List.sorted_cons.mp hs1).1 b h
      have hba : evLe b a := by
        rcases List.mem_cons.mp hamem with h | h
        · rw [h]; exact evLe_refl b
        · exact (List.sorted_cons.mp hs2).1 a h
      have hkey : sortKey a = sortKey b := evLe_key_antisymm hab hba
      have hba2 : b = a := by
        rcases List.mem_cons.mp hbmem with h | h
        · exact h
        · exfalso
          have hmem : sortKey b ∈ t.map sortKey := List.mem_map_of_mem sortKey h
          rw [← hkey] at hmem
          simp only [List.map_cons, List.nodup_cons] at hnd
          exact hnd.1 hmem
      subst hba2
      have ht2 : t.Perm t2 := hp.cons_inv
      have hndt : (t.map sortKey).Nodup := by
        simp only [List.map_cons, List.nodup_cons] at hnd
        exact hnd.2
      rw [ih t2 ht2 (List.sorted_cons.mp hs1).2 (List.sorted_cons.mp hs2).2 hndt]

/-- Counterexample to claim C6 as stated: two windows each holding one of two
records that share start and summary but differ in end both survive
deduplication, and the stable sort keeps their merge order, so the output
order depends on the window-processing order. -/
theorem c6_counterexample :
    refreshGather [WindowResult.fetched [evA], WindowResult.fetched [evA2]] = [evA, evA2]
    ∧ refreshGather [WindowResult.fetched [evA2], WindowResult.fetched [evA]] = [evA2, evA]
    ∧ sortEvents (refreshGather [WindowResult.fetched [evA], WindowResult.fetched [evA2]]) ≠
      sortEvents (refreshGather [WindowResult.fetched [evA2], WindowResult.fetched [evA]]) := by
  refine ⟨by decide, by decide, by decide⟩

/-- Claim C6 as amended: the refresh cycle sorts ascending by the pair of
start and summary, the sorted output is a permutation of the deduplicated
set, the output is independent of window-processing order whenever no two
distinct records share both start and summary (records differing only in the
other fields keep their merge order), and the spec ordering example sorts as
stated. -/
theorem c6_amended :
    (∀ l, List.Sorted evLe (sortEvents l))
    ∧ (∀ l, (sortEvents l).Perm l)
    ∧ (∀ l1 l2, l1.Perm l2 → (l1.map sortKey).Nodup → sortEvents l1 = sortEvents l2)
    ∧ sortEvents [evB, evA, evZ] = [evZ, evA, evB] := by
  refine ⟨sortEvents_sorted, sortEvents_perm, ?_, by decide⟩
  intro l1 l2 hp hnd
  apply sorted_perm_keys_eq
  · exact (sortEvents_perm l1).trans (hp.trans (sortEvents_perm l2).symm)
  · exact sortEvents_sorted l1
  · exact sortEvents_sorted l2
  · exact (((sortEvents_perm l1).map sortKey).nodup_iff).mpr hnd

/-- Witness for C6 as amended, applying the order-independence part to a
two-record set with distinct sort keys. -/
theorem c6_witness : sortEvents [evZ, evB] = sortEvents [evB, evZ] :=
  c6_amended.2.2.1 [evZ, evB] [evB, evZ] (List.Perm.swap evB evZ []) (by decide)

theorem okEvents_foldl (ws : List WindowResult) :
    ∀ acc, ws.foldl windowFold acc = (okEvents ws).foldl dedupStep acc := by
  induction ws with
  | nil => intro acc; rfl
  | cons w rest ih =>
    intro acc
    cases w <;> simp [windowFold, okEvents, List.foldl_append, ih]

theorem foldl_dedupStep_go : ∀ (l es : List EventRec),
    l.foldl dedupStep (es, es.map evKey) = (dedupGo es l, (dedupGo es l).map evKey) := by
  intro l
  induction l with
  | nil => intro es; rfl
  | cons a l ih =>
    intro es
    simp only [List.foldl_cons, dedupStep, dedupGo]
    by_cases h : evKey a ∈ es.map evKey
    · simp only [if_pos h]
      exact ih es
    · simp only [if_neg h]
      have hmap : (es ++ [a]).map evKey = es.map evKey ++ [evKey a] := by simp
      rw [← hmap]
      exact ih (es ++ [a])

theorem refreshGather_eq_dedupGo (ws : List WindowResult) :
    refreshGather ws = dedupGo [] (okEvents ws) := by
  unfold refreshGather
  rw [okEvents_foldl ws ([], [])]
  have h := foldl_dedupStep_go (okEvents ws) []
  simp only [List.map_nil] at h
  rw [h]

theorem countP_key_nodup : ∀ (es : List EventRec) (k), (es.map evKey).Nodup →
    es.countP (fun e => decide (evKey e = k)) = if k ∈ es.map evKey then 1 else 0 := by
  intro es
  induction es with
  | nil => intro k _; rfl
  | cons e es ih =>
    intro k hnd
    simp only [List.map_cons, List.nodup_cons] at hnd
    rw [List.countP_cons, ih k hnd.2]
    by_cases hk : evKey e = k
    · have hne : k ∉ es.map evKey := by
        rw [← hk]
        exact hnd.1
      simp [hk, hne, List.mem_cons]
    · have hne : ¬ (k = evKey e) := fun hh => hk hh.symm
      simp [hk, hne, List.mem_cons]

theorem dedupGo_countP : ∀ (l es : List EventRec) (k), (es.map evKey).Nodup →
    (dedupGo es l).countP (fun e => decide (evKey e = k)) =
    if (k ∈ es.map evKey ∨ k ∈ l.map evKey) then 1 else 0 := by
  intro l
  induction l with
  | nil =>
    intro es k hnd
    simp only [dedupGo, List.map_nil, List.not_mem_nil, or_false]
    exact countP_key_nodup es k hnd
  | cons a l ih =>
    intro es k hnd
    simp only [dedupGo]
    by_cases h : evKey a ∈ es.map evKey
    · rw [if_pos h, ih es k hnd]
      have h2 : k = evKey a → k ∈ es.map evKey := fun hh => hh ▸ h
      have hiff : (k ∈ es.map evKey ∨ k ∈ l.map evKey) ↔
          (k ∈ es.map evKey ∨ k ∈ (a :: l).map evKey) := by
        simp only [List.map_cons, List.mem_cons]
        tauto
      rw [if_congr hiff rfl rfl]
    · rw [if_neg h]
      have hnd2 : ((es ++ [a]).map evKey).Nodup := by
        simp only [List.map_append, List.map_cons, List.map_nil]
        refine hnd.append (List.nodup_singleton _) ?_
        intro x hx hx2
        simp only [List.mem_singleton] at hx2
        subst hx2
        exact h hx
      rw [ih (es ++ [a]) k hnd2]
      have hiff : (k ∈ (es ++ [a]).map evKey ∨ k ∈ l.map evKey) ↔
          (k ∈ es.map evKey ∨ k ∈ (a :: l).map evKey) := by
        simp only [List.map_append, List.map_cons, List.map_nil, List.mem_append,
          List.mem_singleton, List.mem_cons]
        tauto
      rw [if_congr hiff rfl rfl]

theorem dedupGo_find : ∀ (l es : List EventRec) (k),
    (dedupGo es l).find? (fun e => decide (evKey e = k)) =
    (es ++ l).find? (fun e => decide (evKey e = k)) := by
  intro l
  induction l with
  | nil => intro es k; simp [dedupGo]
  | cons a l ih =>
    intro es k
    simp only [dedupGo]
    by_cases h : evKey a ∈ es.map evKey
    · rw [if_pos h, ih es k, List.find?_append, List.find?_append]
      by_cases hpa : (decide (evKey a = k)) = true
      · have hk : evKey a = k := of_decide_eq_true hpa
        rcases List.mem_map.mp h with ⟨e0, he0, hke⟩
        have hne : es.find? (fun e => decide (evKey e = k)) ≠ none := by
          intro heq
          exact (List.find?_eq_none.mp heq e0 he0) (by rw [hke, hk]; simp)
        cases hfind : es.find? (fun e => decide (evKey e = k)) with
        | none => exact absurd hfind hne
        | some v => rfl
      · rw [List.find?_cons_of_neg l hpa]
    · rw [if_neg h, ih (es ++ [a]) k, List.append_assoc]
      rfl

/-- Claim C5: merging deduplicates by the start-end-summary key with exactly
one record kept per key present in the fetched windows, the kept record is
the first occurrence in window-processing order, and the probe offsets are
generated earliest first. -/
theorem c5_dedup :
    (∀ ws k, (refreshGather ws).countP (fun e => decide (evKey e = k)) =
      if k ∈ (okEvents ws).map evKey then 1 else 0)
    ∧ (∀ ws k, (refreshGather ws).find? (fun e => decide (evKey e = k)) =
      (okEvents ws).find? (fun e => decide (evKey e = k)))
    ∧ (∀ b a, List.Sorted (· < ·) (weeksOffsets b a)) := by
  refine ⟨?_, ?_, ?_⟩
  · intro ws k
    rw [refreshGather_eq_dedupGo, dedupGo_countP (okEvents ws) [] k (by simp)]
    simp
  · intro ws k
    rw [refreshGather_eq_dedupGo, dedupGo_find (okEvents ws) [] k]
    rfl
  · intro b a
    unfold weeksOffsets
    refine List.Pairwise.map _ (fun x y hxy => ?_) (List.pairwise_lt_range (b + a + 1))
    have h2 : x < y := hxy
    show (x : Int) - (b : Int) < (y : Int) - (b : Int)
    omega

/-- Witness for C5 at a concrete overlap: the same record fetched by two
windows is kept exactly once. -/
theorem c5_witness :
    (refreshGather [WindowResult.fetched [evA], WindowResult.fetched [evA]]).countP
      (fun e => decide (evKey e = evKey evA)) =
    if evKey evA ∈ (okEvents [WindowResult.fetched [evA], WindowResult.fetched [evA]]).map evKey
    then 1 else 0 :=
  c5_dedup.1 [WindowResult.fetched [evA], WindowResult.fetched [evA]] (evKey evA)
